import Mathlib

/-!
Verification of the probing engine of `atd-signal-comms`.

The embedding follows the Python source:
  * `device.py` — the `Device` class (`__slots__`, `__init__`,
    `raise_if_invalid`, `get_id`, `ping`, `__dict__`);
  * `run_comm_check.py` — the `worker` retry loop, the queue/worker
    pool of `main`, device construction and result collection;
  * `settings.py` — `MAX_ATTEMPTS`, `STATUS_CODES`;
  * `config.py` — `CONFIG` field mappings and the `SCHEMA` key set.

Loosely-typed Knack record values are embedded as `KVal`; Python float
round-trip delays are embedded as rationals, with `round(x, 2)` embedded
as rounding of rationals to two decimal places.  The cooperative asyncio
worker pool is embedded as an explicit labelled transition system
(`PoolState`, `stepPool`): a schedule chooses which worker runs next, one
probe attempt (or one dequeue, or one hand-back) per step, which covers
every interleaving the single-threaded event loop can realise.
-/

namespace SignalComms

/-- A loosely-typed value of a Knack record field (Python: `None`, `str`,
`int`, `float`). -/
inductive KVal where
  | vnull : KVal
  | vstr (s : String) : KVal
  | vint (n : Int) : KVal
  | vnum (q : ℚ) : KVal
deriving DecidableEq, Repr

/-- Python truthiness of a `KVal` (`None`, `""`, `0` are falsy), as used by
`assert getattr(self, attr)` in `Device.raise_if_invalid`. -/
def KVal.truthy : KVal → Bool
  | .vnull => false
  | .vstr s => !(s == "")
  | .vint n => !(n == 0)
  | .vnum q => !(q == 0)

/-- Rendering of a `KVal` inside an f-string (`device.py` `get_id`). -/
def KVal.fmt : KVal → String
  | .vnull => "None"
  | .vstr s => s
  | .vint n => toString n
  | .vnum q => toString q

/-- A Knack record / keyword-argument dictionary: association list from
field names to values. -/
def KRecord : Type := List (String × KVal)

/-- Embedding of `dict.get(key)`: first matching value, `None` when absent. -/
def KRecord.get (r : KRecord) (key : String) : KVal :=
  match r.find? (fun kv => kv.1 == key) with
  | some kv => kv.2
  | none => .vnull

/-- From `settings.py`: `MAX_ATTEMPTS = 2`. -/
def MAX_ATTEMPTS : Nat := 2

/-- From `settings.py`: the `STATUS_CODES` dict. -/
def STATUS_CODES : List (Int × String) :=
  [(0, "no_attempts"), (1, "online"), (-1, "timeout"),
   (-2, "invalid_hostname"), (-3, "unknown_error")]

/-- Dict lookup `STATUS_CODES[code]`; `none` embeds a `KeyError`. -/
def statusLookup (code : Int) : Option String :=
  match STATUS_CODES.find? (fun kv => kv.1 == code) with
  | some kv => some kv.2
  | none => none

/-- Classification of one probe attempt: the four disjoint exit paths of
the `try`/`except` block in `Device.ping` (`device.py` lines 59-74).
`success` carries the round-trip time in seconds returned by
`aioping.ping`. -/
inductive Outcome where
  | success (rttSeconds : ℚ) : Outcome
  | timeout : Outcome
  | invalidHost : Outcome
  | unknownError : Outcome
deriving DecidableEq, Repr

/-- Python `round(x, 2)` over rationals: round to two decimal places. -/
def round2 (q : ℚ) : ℚ := (round (q * 100) : Int) / 100

/-- The `Device` record: exactly the eleven `__slots__` of `device.py`.
`status_code` is an `Int` (set to `0` by `__init__` and to one of
`1, -1, -2, -3` by `ping`); `status_desc`, `delay` and `timestamp` start
as `None` and are set by `ping`. -/
structure Device where
  id : KVal
  ip_address : KVal
  device_id : KVal
  knack_id : KVal
  location_name : KVal
  location_id : KVal
  status_code : Int
  status_desc : Option String
  delay : Option ℚ
  timestamp : Option String
  device_type : KVal
deriving DecidableEq, Repr

/-- Embedding of `Device.raise_if_invalid` (`device.py` lines 91-103): raise
`ValueError` when `ip_address` or `device_id` is falsy or absent.  In the
embedding the error value is the `ValueError` message. -/
def raise_if_invalid (kwargs : KRecord) : Except String Unit :=
  if !(kwargs.get "ip_address").truthy then
    .error "Missing value for field ip_address"
  else if !(kwargs.get "device_id").truthy then
    .error "Missing value for field device_id"
  else
    .ok ()

/-- Embedding of `Device.get_id` (`device.py` lines 105-115):
`f"{self.device_id}_{int(now.timestamp() * 1000)}"`; the current time in
epoch milliseconds is a parameter of the embedding. -/
def get_id (device_id : KVal) (nowMs : Int) : KVal :=
  .vstr (device_id.fmt ++ "_" ++ toString nowMs)

/-- Embedding of `Device.__init__` (`device.py` lines 32-42): set every slot from
`kwargs.get(key)` (keyword arguments outside `__slots__` are ignored),
run `raise_if_invalid`, then set `id` and `status_code = 0`.

In every call site of the program (`construct_device`), the keyword
arguments are built from a `CONFIG` field mapping plus `device_type`, so
the keys `id`, `status_code`, `status_desc`, `delay`, `timestamp` are
never supplied and those slots start from `kwargs.get(...) = None`
(`status_code` is then overwritten with `0`). -/
def mkDevice (kwargs : KRecord) (nowMs : Int) : Except String Device :=
  match raise_if_invalid kwargs with
  | .error e => .error e
  | .ok _ => .ok
    { id := get_id (kwargs.get "device_id") nowMs
      ip_address := kwargs.get "ip_address"
      device_id := kwargs.get "device_id"
      knack_id := kwargs.get "knack_id"
      location_name := kwargs.get "location_name"
      location_id := kwargs.get "location_id"
      status_code := 0
      status_desc := none
      delay := none
      timestamp := none
      device_type := kwargs.get "device_type" }

/-- Embedding of `Device.ping` (`device.py` lines 44-77) for one attempt whose network
outcome is `o` and whose wall-clock timestamp string is `ts`:
set `timestamp`; on success set `delay = round(rtt * 1000, 2)` and
`status_code = 1`; the three `except` arms set `status_code` to `-1`
(`TimeoutError`), `-2` (`socket.gaierror`), `-3` (any other `Exception`);
finally set `status_desc = STATUS_CODES[self.status_code]`. -/
def Device.ping (d : Device) (o : Outcome) (ts : String) : Device :=
  let d1 : Device := { d with timestamp := some ts }
  let d2 : Device :=
    match o with
    | .success rtt =>
        { d1 with delay := some (round2 (rtt * 1000)), status_code := 1 }
    | .timeout => { d1 with status_code := -1 }
    | .invalidHost => { d1 with status_code := -2 }
    | .unknownError => { d1 with status_code := -3 }
  { d2 with status_desc := statusLookup d2.status_code }

/-- The status codes on which the `worker` loop stops retrying
(`run_comm_check.py` line 48: `device.status_code not in [1, -2, -3]`). -/
def TERMINAL_CODES : List Int := [1, -2, -3]

/-- Every status code `ping` can leave on a device. -/
def AFTER_PING_CODES : List Int := [1, -1, -2, -3]

/-- The inner retry loop of `worker` (`run_comm_check.py` lines 47-57):
`attempts = 0; while attempts <= MAX_ATTEMPTS and status_code not in
[1, -2, -3]: attempts += 1; await device.ping()`.  `outs i` and `times i`
give the network outcome and timestamp of the `i`-th call to `ping`
(0-based).  Returns the final device and the final value of `attempts`. -/
def worker_loop (outs : Nat → Outcome) (times : Nat → String)
    (maxAttempts : Nat) (attempts : Nat) (d : Device) : Device × Nat :=
  if h : attempts ≤ maxAttempts ∧ d.status_code ∉ TERMINAL_CODES then
    worker_loop outs times maxAttempts (attempts + 1)
      (d.ping (outs attempts) (times attempts))
  else
    (d, attempts)
termination_by maxAttempts + 1 - attempts
decreasing_by omega

/-- Processing of one dequeued device by `worker`: run the retry loop
from `attempts = 0`. -/
def processDevice (outs : Nat → Outcome) (times : Nat → String)
    (maxAttempts : Nat) (d : Device) : Device × Nat :=
  worker_loop outs times maxAttempts 0 d

/-- One entry of `CONFIG` (`config.py`): a device type, its Knack
container and its field mapping (humanized name → Knack field key). -/
structure Cfg where
  device_type : String
  container : String
  fields : List (String × String)
deriving DecidableEq, Repr

/-- From `config.py`: the `CONFIG` list (the `atd-signal-comms/config.py`
imported by `run_comm_check.py`). -/
def CONFIG : List Cfg :=
  [{ device_type := "camera", container := "view_395",
     fields := [("ip_address", "field_638"), ("device_id", "field_947"),
                ("location_id", "field_642"), ("location_name", "field_211"),
                ("knack_id", "id"), ("signal_id", "field_199")] },
   { device_type := "detector", container := "view_1333",
     fields := [("ip_address", "field_1570"), ("device_id", "field_1526"),
                ("location_id", "field_209"), ("location_name", "field_212"),
                ("knack_id", "id"), ("signal_id", "field_1579")] },
   { device_type := "digital_message_sign", container := "view_1564",
     fields := [("ip_address", "field_1653"), ("device_id", "field_1639"),
                ("location_id", "field_732"), ("location_name", "field_211"),
                ("knack_id", "id")] },
   { device_type := "cabinet_battery_backup", container := "view_1567",
     fields := [("ip_address", "field_3525"), ("device_id", "field_1789"),
                ("location_id", "field_1789"), ("location_name", "field_4128"),
                ("knack_id", "id"), ("signal_id", "field_1798")] }]

/-- The key set of `SCHEMA` (`config.py`), which `validate_results`
enforces on every output row with a require-all validator. -/
def SCHEMA_KEYS : List String :=
  ["id", "ip_address", "device_id", "knack_id", "location_name",
   "location_id", "status_code", "status_desc", "delay", "timestamp",
   "device_type", "signal_id"]

/-- Embedding of `construct_device` (`run_comm_check.py` lines 61-78): build the
keyword arguments `{key: device.get(value) for key, value in
fields.items()}`, add `device_type`, and call `Device(**kwargs)`. -/
def construct_device (record : KRecord) (device_type : String)
    (fields : List (String × String)) (nowMs : Int) : Except String Device :=
  mkDevice
    (fields.map (fun kv => (kv.1, record.get kv.2))
      ++ [("device_type", .vstr device_type)]) nowMs

/-- An `Option String` as a Python value (`None` or `str`). -/
def optStr : Option String → KVal
  | none => .vnull
  | some s => .vstr s

/-- An `Option ℚ` as a Python value (`None` or number). -/
def optNum : Option ℚ → KVal
  | none => .vnull
  | some q => .vnum q

/-- Embedding of `Device.__dict__` (`device.py` lines 79-89):
`{s: getattr(self, s, None) for s in self.__slots__}` — exactly the
eleven slot keys, in slot order. -/
def Device.toDict (d : Device) : List (String × KVal) :=
  [("id", d.id), ("ip_address", d.ip_address), ("device_id", d.device_id),
   ("knack_id", d.knack_id), ("location_name", d.location_name),
   ("location_id", d.location_id), ("status_code", .vint d.status_code),
   ("status_desc", optStr d.status_desc), ("delay", optNum d.delay),
   ("timestamp", optStr d.timestamp), ("device_type", d.device_type)]

/-- The device-construction loop of `main` (`run_comm_check.py` lines
184-191): `try: construct_device(...); except ValueError: continue` —
records whose construction raises are dropped. -/
def buildDevices (records : List KRecord) (device_type : String)
    (fields : List (String × String)) (nowMs : Int) : List Device :=
  records.filterMap
    (fun r => (construct_device r device_type fields nowMs).toOption)

/-- The count that `main` reports after admission
(`run_comm_check.py` line 193: `f"{len(devices)} devices to ping"`):
the number of admitted devices, not the number of dropped records. -/
def loggedDeviceCount (records : List KRecord) (device_type : String)
    (fields : List (String × String)) (nowMs : Int) : Nat :=
  (buildDevices records device_type fields nowMs).length

/-- A record is admissible when the mapped `ip_address` and `device_id`
keyword arguments are truthy — exactly the check of
`raise_if_invalid`. -/
def admissible (record : KRecord) (fields : List (String × String)) : Bool :=
  (KRecord.get (fields.map (fun kv => (kv.1, record.get kv.2)))
      "ip_address").truthy
    && (KRecord.get (fields.map (fun kv => (kv.1, record.get kv.2)))
      "device_id").truthy

/-- A worker slot of the pool: `none` when the worker is blocked on
`queue.get()`, `some (i, d, a)` when it holds the device of input index
`i`, in state `d`, having made `a` calls to `ping` on it so far. -/
def Slot : Type := Option (Nat × Device × Nat)

/-- State of the queue/worker system of `main` (`run_comm_check.py` lines
195-212): the FIFO queue of devices still to be dequeued (tagged with
their input index), one slot per spawned worker task, and the devices
whose processing has finished (`queue.task_done()`). -/
structure PoolState where
  pending : List (Nat × Device)
  slots : List Slot
  done : List (Nat × Device)

/-- The initial pool state: all `K` constructed devices queued in input
order, `W` idle workers (`range(workers)`; a non-positive Python worker
count spawns no tasks, embedded as `W = 0`), nothing done. -/
def initPool (W : Nat) (devices : List Device) : PoolState :=
  { pending := devices.enum, slots := List.replicate W none, done := [] }

/-- One scheduler step of the cooperative event loop: worker `w` runs
until its next suspension point.  An idle worker dequeues the head of the
queue (blocking — no step — when the queue is empty); a worker holding a
device either makes its next `ping` attempt (when the `while` condition
of `worker` holds) or hands the finished device back.  `none` means
worker `w` cannot run. -/
def stepPool (outs : Nat → Nat → Outcome) (times : Nat → Nat → String)
    (s : PoolState) (w : Nat) : Option PoolState :=
  match s.slots[w]? with
  | none => none
  | some (some (i, d, a)) =>
      if a ≤ MAX_ATTEMPTS ∧ d.status_code ∉ TERMINAL_CODES then
        some { s with
          slots := s.slots.set w (some (i, d.ping (outs i a) (times i a), a + 1)) }
      else
        some { s with slots := s.slots.set w none, done := (i, d) :: s.done }
  | some none =>
      match s.pending with
      | [] => none
      | t :: rest =>
          some { s with pending := rest,
                        slots := s.slots.set w (some (t.1, t.2, 0)) }

/-- Run a schedule (a list of worker choices) from a state; `none` when
the schedule picks a worker that cannot run. -/
def runSched (outs : Nat → Nat → Outcome) (times : Nat → Nat → String) :
    List Nat → PoolState → Option PoolState
  | [], s => some s
  | w :: ws, s =>
      match stepPool outs times s w with
      | none => none
      | some t => runSched outs times ws t

/-- Holds when `queue.join()` has returned and every worker is blocked again: the
queue is empty and no worker holds a device. -/
def PoolState.final (s : PoolState) : Bool :=
  s.pending.isEmpty && s.slots.all (fun o => o.isNone)

/-- Steps a slot still requires: an untouched slot needs at most
`MAX_ATTEMPTS + 1` attempts plus the hand-back step. -/
def slotMeasure : Slot → Nat
  | none => 0
  | some (_, _, a) => MAX_ATTEMPTS + 2 - a

/-- Upper bound on the number of steps the pool can still take. -/
def poolMeasure (s : PoolState) : Nat :=
  (MAX_ATTEMPTS + 3) * s.pending.length
    + (s.slots.map slotMeasure).sum

/-- Contribution of one worker slot to the device count. -/
def slotCount : Slot → Nat
  | none => 0
  | some _ => 1

/-- Devices present in the pool in any form: queued, held, or done. -/
def poolTotal (s : PoolState) : Nat :=
  s.pending.length + (s.slots.map slotCount).sum + s.done.length

/-- The run with `workerCount ≤ 0` on a nonempty batch: the state is not
final, yet no worker can ever run — `queue.join()` blocks forever and no
error is raised. -/
def Deadlocked (outs : Nat → Nat → Outcome) (times : Nat → Nat → String)
    (s : PoolState) : Prop :=
  s.final = false ∧ ∀ w, stepPool outs times s w = none

/-- The status code each probe outcome is classified to: `Timeout` to
`-1`, `InvalidHost` (name resolution) to `-2`, `UnknownError` to `-3`,
`Success` to `1`. -/
def pingCode : Outcome → Int
  | .success _ => 1
  | .timeout => -1
  | .invalidHost => -2
  | .unknownError => -3

/-- The eleven `__slots__` names of `device.py`, in slot order. -/
def SLOT_KEYS : List String :=
  ["id", "ip_address", "device_id", "knack_id", "location_name",
   "location_id", "status_code", "status_desc", "delay", "timestamp",
   "device_type"]

/-- The `camera` field mapping of `config.py` (used to instantiate
theorems at the concrete configuration). -/
def cameraFields : List (String × String) :=
  [("ip_address", "field_638"), ("device_id", "field_947"),
   ("location_id", "field_642"), ("location_name", "field_211"),
   ("knack_id", "id"), ("signal_id", "field_199")]

/-- A concrete well-formed camera inventory record; `field_199` is the
source field of the camera `signal_id`. -/
def camRecord : KRecord :=
  [("field_638", .vstr "10.0.0.1"), ("field_947", .vint 7),
   ("field_642", .vstr "LOC001"), ("field_211", .vstr "1st / Main"),
   ("id", .vstr "knack1"), ("field_199", .vint 123)]

/-- A second concrete well-formed camera record. -/
def camRecord2 : KRecord :=
  [("field_638", .vstr "10.0.0.2"), ("field_947", .vint 8),
   ("id", .vstr "knack2")]

/-- A malformed camera record: its `ip_address` source field is absent. -/
def badRecord : KRecord :=
  [("field_947", .vint 9), ("id", .vstr "knack3")]

/-- A batch of two well-formed records and one malformed record. -/
def mixedRecords : List KRecord := [camRecord, camRecord2, badRecord]

/-- A concrete freshly-constructed device (the result of
`construct_device camRecord "camera" cameraFields 0`). -/
def sampleDevice : Device :=
  { id := .vstr "7_0", ip_address := .vstr "10.0.0.1", device_id := .vint 7,
    knack_id := .vstr "knack1", location_name := .vstr "1st / Main",
    location_id := .vstr "LOC001", status_code := 0, status_desc := none,
    delay := none, timestamp := none, device_type := .vstr "camera" }

/-! ### Facts about one `ping` attempt -/

theorem ping_code (d : Device) (o : Outcome) (ts : String) :
    (d.ping o ts).status_code = pingCode o := by
  cases o <;> rfl

theorem pingCode_mem (o : Outcome) : pingCode o ∈ AFTER_PING_CODES := by
  cases o <;> simp [pingCode, AFTER_PING_CODES]

theorem ping_code_mem (d : Device) (o : Outcome) (ts : String) :
    (d.ping o ts).status_code ∈ AFTER_PING_CODES := by
  rw [ping_code]; exact pingCode_mem o

theorem ping_code_not_one (d : Device) (o : Outcome) (ts : String)
    (h : ∀ rtt, o ≠ .success rtt) : (d.ping o ts).status_code ≠ 1 := by
  cases o with
  | success rtt => exact absurd rfl (h rtt)
  | timeout => rw [ping_code]; decide
  | invalidHost => rw [ping_code]; decide
  | unknownError => rw [ping_code]; decide

theorem ping_desc (d : Device) (o : Outcome) (ts : String) :
    (d.ping o ts).status_desc = statusLookup (d.ping o ts).status_code := by
  cases o <;> rfl

theorem ping_desc_isSome (d : Device) (o : Outcome) (ts : String) :
    ((d.ping o ts).status_desc).isSome = true := by
  cases o <;> rfl

theorem ping_delay_success (d : Device) (rtt : ℚ) (ts : String) :
    (d.ping (.success rtt) ts).delay = some (round2 (rtt * 1000)) := rfl

theorem ping_delay_other (d : Device) (o : Outcome) (ts : String)
    (h : ∀ rtt, o ≠ .success rtt) : (d.ping o ts).delay = d.delay := by
  cases o with
  | success rtt => exact absurd rfl (h rtt)
  | timeout => rfl
  | invalidHost => rfl
  | unknownError => rfl

theorem mkDevice_ok (kwargs : KRecord) (nowMs : Int) (d : Device)
    (h : mkDevice kwargs nowMs = .ok d) :
    d.status_code = 0 ∧ d.status_desc = none ∧ d.delay = none
    ∧ d.timestamp = none := by
  unfold mkDevice at h
  cases hr : raise_if_invalid kwargs with
  | error e => rw [hr] at h; cases h
  | ok u => rw [hr] at h; cases h; exact ⟨rfl, rfl, rfl, rfl⟩

theorem construct_device_ok (record : KRecord) (device_type : String)
    (fields : List (String × String)) (nowMs : Int) (d : Device)
    (h : construct_device record device_type fields nowMs = .ok d) :
    d.status_code = 0 ∧ d.status_desc = none ∧ d.delay = none
    ∧ d.timestamp = none :=
  mkDevice_ok _ nowMs d h

/-- C3. For every input address and every failure mode of the probe,
`Device.ping` returns normally (it is a total function of the outcome)
with `status_code = 1` on success, `-1` on timeout, `-2` on
name-resolution failure, `-3` on any other error — all in
`{1, -1, -2, -3}` — and the `STATUS_CODES` description lookup it performs
always succeeds (no exception escapes). -/
theorem C3_prober_never_raises (o : Outcome) (ts : String) (d : Device) :
    (d.ping o ts).status_code = pingCode o
    ∧ (d.ping o ts).status_code ∈ AFTER_PING_CODES
    ∧ ((d.ping o ts).status_desc).isSome = true :=
  ⟨ping_code d o ts, ping_code_mem d o ts, ping_desc_isSome d o ts⟩

/-- C8. After every probe attempt, `status_desc` equals the fixed
`STATUS_CODES` lookup applied to `status_code`; construction yields
`status_code = 0`; every produced code lies in `{0, 1, -1, -2, -3}`,
and the lookup is exactly the five-entry table of `settings.py`. -/
theorem C8_status_desc_pure_function :
    (∀ (o : Outcome) (ts : String) (d : Device),
        (d.ping o ts).status_desc = statusLookup (d.ping o ts).status_code
        ∧ (d.ping o ts).status_code ∈ STATUS_CODES.map Prod.fst)
    ∧ (∀ (kwargs : KRecord) (nowMs : Int) (d : Device),
        mkDevice kwargs nowMs = .ok d →
          d.status_code = 0 ∧ d.status_code ∈ STATUS_CODES.map Prod.fst)
    ∧ STATUS_CODES.map Prod.fst = [0, 1, -1, -2, -3]
    ∧ statusLookup 0 = some "no_attempts"
    ∧ statusLookup 1 = some "online"
    ∧ statusLookup (-1) = some "timeout"
    ∧ statusLookup (-2) = some "invalid_hostname"
    ∧ statusLookup (-3) = some "unknown_error" := by
  refine ⟨?_, ?_, by decide, rfl, rfl, rfl, rfl, rfl⟩
  · intro o ts d
    refine ⟨ping_desc d o ts, ?_⟩
    rw [ping_code]
    cases o <;> simp [pingCode, STATUS_CODES]
  · intro kwargs nowMs d h
    have h0 := (mkDevice_ok kwargs nowMs d h).1
    exact ⟨h0, by rw [h0]; decide⟩

/-- C10. Immediately after construction and before any probe attempt, a
device has `status_code = 0` but `status_desc = None` (not
`"no_attempts"`): the description is first derived when `ping` runs, so
a never-probed record carries a null `status_desc` in its output dict. -/
theorem C10_fresh_status_desc_null (record : KRecord) (device_type : String)
    (fields : List (String × String)) (nowMs : Int) (d : Device)
    (h : construct_device record device_type fields nowMs = .ok d) :
    d.status_code = 0 ∧ d.status_desc = none
    ∧ ("status_code", KVal.vint 0) ∈ d.toDict
    ∧ ("status_desc", KVal.vnull) ∈ d.toDict
    ∧ (∀ (o : Outcome) (ts : String),
        ((d.ping o ts).status_desc).isSome = true) := by
  obtain ⟨h0, hdesc, -, -⟩ := construct_device_ok record device_type fields nowMs d h
  refine ⟨h0, hdesc, ?_, ?_, fun o ts => ping_desc_isSome d o ts⟩
  · unfold Device.toDict
    rw [h0]
    simp
  · unfold Device.toDict
    rw [hdesc]
    simp [optStr]

theorem C10_fresh_status_desc_null_witness :
    sampleDevice.status_code = 0 ∧ sampleDevice.status_desc = none
    ∧ ("status_code", KVal.vint 0) ∈ sampleDevice.toDict
    ∧ ("status_desc", KVal.vnull) ∈ sampleDevice.toDict
    ∧ (∀ (o : Outcome) (ts : String),
        ((sampleDevice.ping o ts).status_desc).isSome = true) :=
  C10_fresh_status_desc_null camRecord "camera" cameraFields 0 sampleDevice rfl

/-! ### Facts about the `worker` retry loop -/

theorem worker_loop_stop (outs : Nat → Outcome) (times : Nat → String)
    (maxAttempts attempts : Nat) (d : Device)
    (h : ¬ (attempts ≤ maxAttempts ∧ d.status_code ∉ TERMINAL_CODES)) :
    worker_loop outs times maxAttempts attempts d = (d, attempts) := by
  rw [worker_loop, dif_neg h]

theorem worker_loop_go (outs : Nat → Outcome) (times : Nat → String)
    (maxAttempts attempts : Nat) (d : Device)
    (h : attempts ≤ maxAttempts ∧ d.status_code ∉ TERMINAL_CODES) :
    worker_loop outs times maxAttempts attempts d
      = worker_loop outs times maxAttempts (attempts + 1)
          (d.ping (outs attempts) (times attempts)) := by
  rw [worker_loop, dif_pos h]

theorem worker_loop_all_timeout (outs : Nat → Outcome)
    (times : Nat → String) (maxAttempts : Nat)
    (houts : ∀ i, outs i = Outcome.timeout) :
    ∀ (n attempts : Nat) (d : Device), maxAttempts + 1 - attempts = n →
      attempts ≤ maxAttempts + 1 → d.status_code = -1 →
      (worker_loop outs times maxAttempts attempts d).2 = maxAttempts + 1
      ∧ (worker_loop outs times maxAttempts attempts d).1.status_code = -1 := by
  intro n
  induction n with
  | zero =>
    intro attempts d hn ha hd
    have hstop : ¬ (attempts ≤ maxAttempts ∧ d.status_code ∉ TERMINAL_CODES) := by
      intro hc; omega
    rw [worker_loop_stop outs times maxAttempts attempts d hstop]
    exact ⟨by omega, hd⟩
  | succ k ih =>
    intro attempts d hn ha hd
    have hgo : attempts ≤ maxAttempts ∧ d.status_code ∉ TERMINAL_CODES := by
      refine ⟨by omega, ?_⟩
      rw [hd]; decide
    rw [worker_loop_go outs times maxAttempts attempts d hgo]
    refine ih (attempts + 1) (d.ping (outs attempts) (times attempts))
      (by omega) (by omega) ?_
    rw [houts attempts, ping_code]
    rfl

/-- C1. A target every one of whose probe attempts times out is, with
`MAX_ATTEMPTS = 2`, probed exactly `3` times (one initial attempt plus
two retries, the inclusive boundary `attempts <= MAX_ATTEMPTS` with
pre-increment) and ends with `status_code = -1`. -/
theorem C1_always_timeout_three_attempts (d : Device)
    (outs : Nat → Outcome) (times : Nat → String)
    (hd : d.status_code = 0) (houts : ∀ i, outs i = Outcome.timeout) :
    (processDevice outs times MAX_ATTEMPTS d).2 = 3
    ∧ (processDevice outs times MAX_ATTEMPTS d).1.status_code = -1 := by
  unfold processDevice
  have hgo : 0 ≤ MAX_ATTEMPTS ∧ d.status_code ∉ TERMINAL_CODES := by
    refine ⟨Nat.zero_le _, ?_⟩
    rw [hd]; decide
  rw [worker_loop_go outs times MAX_ATTEMPTS 0 d hgo]
  have h1 : (d.ping (outs 0) (times 0)).status_code = -1 := by
    rw [houts 0, ping_code]; rfl
  have := worker_loop_all_timeout outs times MAX_ATTEMPTS houts
    (MAX_ATTEMPTS + 1 - 1) 1 (d.ping (outs 0) (times 0)) rfl
    (by unfold MAX_ATTEMPTS; omega) h1
  unfold MAX_ATTEMPTS at this ⊢
  exact ⟨this.1, this.2⟩

theorem C1_always_timeout_three_attempts_witness :
    (processDevice (fun _ => Outcome.timeout) (fun _ => "ts")
        MAX_ATTEMPTS sampleDevice).2 = 3
    ∧ (processDevice (fun _ => Outcome.timeout) (fun _ => "ts")
        MAX_ATTEMPTS sampleDevice).1.status_code = -1 :=
  C1_always_timeout_three_attempts sampleDevice (fun _ => Outcome.timeout)
    (fun _ => "ts") rfl (fun _ => rfl)

/-- C4. A target whose first probe attempt yields `InvalidHost`,
`UnknownError` or `Success` is never retried: exactly one probe attempt
is performed (for any retry budget), and in the `InvalidHost` case the
final `status_code` is `-2`.  Only `Timeout` leads to a further
attempt. -/
theorem C4_non_timeout_never_retried (d : Device) (outs : Nat → Outcome)
    (times : Nat → String) (maxAttempts : Nat)
    (hd : d.status_code = 0) (h0 : outs 0 ≠ Outcome.timeout) :
    (processDevice outs times maxAttempts d).2 = 1
    ∧ (outs 0 = Outcome.invalidHost →
        (processDevice outs times maxAttempts d).1.status_code = -2) := by
  unfold processDevice
  have hgo : 0 ≤ maxAttempts ∧ d.status_code ∉ TERMINAL_CODES := by
    refine ⟨Nat.zero_le _, ?_⟩
    rw [hd]; decide
  rw [worker_loop_go outs times maxAttempts 0 d hgo]
  have hterm : (d.ping (outs 0) (times 0)).status_code ∈ TERMINAL_CODES := by
    rw [ping_code]
    cases h : outs 0 with
    | success rtt => simp [pingCode, TERMINAL_CODES]
    | timeout => exact absurd h h0
    | invalidHost => simp [pingCode, TERMINAL_CODES]
    | unknownError => simp [pingCode, TERMINAL_CODES]
  have hstop : ¬ (1 ≤ maxAttempts
      ∧ (d.ping (outs 0) (times 0)).status_code ∉ TERMINAL_CODES) := by
    intro hc; exact hc.2 hterm
  rw [worker_loop_stop outs times maxAttempts 1 _ hstop]
  refine ⟨rfl, ?_⟩
  intro hinv
  rw [ping_code, hinv]
  rfl

theorem C4_non_timeout_never_retried_witness :
    (processDevice (fun _ => Outcome.invalidHost) (fun _ => "ts")
        MAX_ATTEMPTS sampleDevice).2 = 1
    ∧ ((fun (_ : Nat) => Outcome.invalidHost) 0 = Outcome.invalidHost →
        (processDevice (fun _ => Outcome.invalidHost) (fun _ => "ts")
          MAX_ATTEMPTS sampleDevice).1.status_code = -2) :=
  C4_non_timeout_never_retried sampleDevice (fun _ => Outcome.invalidHost)
    (fun _ => "ts") MAX_ATTEMPTS rfl (by intro h; cases h)

theorem round2_nonneg (q : ℚ) (hq : 0 ≤ q) : 0 ≤ round2 q := by
  unfold round2
  have h1 : (0 : ℤ) ≤ round (q * 100) := by
    rw [round_eq]
    refine Int.le_floor.mpr ?_
    push_cast
    linarith
  have h2 : ((0 : ℤ) : ℚ) ≤ ((round (q * 100) : ℤ) : ℚ) := by
    exact_mod_cast h1
  have h3 : (0 : ℚ) ≤ ((round (q * 100) : ℤ) : ℚ) := by simpa using h2
  positivity

theorem worker_loop_delay_inv (outs : Nat → Outcome)
    (times : Nat → String) (maxAttempts : Nat) :
    ∀ (n attempts : Nat) (d : Device), maxAttempts + 1 - attempts = n →
      d.delay = none → d.status_code ≠ 1 →
      ((worker_loop outs times maxAttempts attempts d).1.status_code = 1 →
        ∃ rtt, outs ((worker_loop outs times maxAttempts attempts d).2 - 1)
            = Outcome.success rtt
          ∧ (worker_loop outs times maxAttempts attempts d).1.delay
            = some (round2 (rtt * 1000)))
      ∧ ((worker_loop outs times maxAttempts attempts d).1.delay ≠ none →
        (worker_loop outs times maxAttempts attempts d).1.status_code = 1) := by
  intro n
  induction n with
  | zero =>
    intro attempts d hn hdel hcode
    have hstop : ¬ (attempts ≤ maxAttempts
        ∧ d.status_code ∉ TERMINAL_CODES) := by
      intro hc; omega
    rw [worker_loop_stop outs times maxAttempts attempts d hstop]
    exact ⟨fun h1 => absurd h1 hcode, fun hne => absurd hdel hne⟩
  | succ k ih =>
    intro attempts d hn hdel hcode
    by_cases hterm : d.status_code ∈ TERMINAL_CODES
    · have hstop : ¬ (attempts ≤ maxAttempts
          ∧ d.status_code ∉ TERMINAL_CODES) := by
        intro hc; exact hc.2 hterm
      rw [worker_loop_stop outs times maxAttempts attempts d hstop]
      exact ⟨fun h1 => absurd h1 hcode, fun hne => absurd hdel hne⟩
    · have hgo : attempts ≤ maxAttempts ∧ d.status_code ∉ TERMINAL_CODES :=
        ⟨by omega, hterm⟩
      rw [worker_loop_go outs times maxAttempts attempts d hgo]
      cases h : outs attempts with
      | success rtt =>
        have hping :
            (d.ping (Outcome.success rtt) (times attempts)).status_code = 1 := by
          rw [ping_code]; rfl
        have hstop1 : ¬ (attempts + 1 ≤ maxAttempts
            ∧ (d.ping (Outcome.success rtt) (times attempts)).status_code
                ∉ TERMINAL_CODES) := by
          intro hc
          exact hc.2 (by rw [hping]; decide)
        rw [worker_loop_stop outs times maxAttempts (attempts + 1) _ hstop1]
        refine ⟨fun _ => ⟨rtt, ?_, ?_⟩, fun _ => hping⟩
        · simpa using h
        · exact ping_delay_success d rtt (times attempts)
      | timeout =>
        have hping :
            (d.ping Outcome.timeout (times attempts)).status_code = -1 := by
          rw [ping_code]; rfl
        refine ih (attempts + 1) (d.ping Outcome.timeout (times attempts))
          (by omega) ?_ (by rw [hping]; decide)
        rw [ping_delay_other d Outcome.timeout (times attempts)
          (fun rtt hr => by cases hr)]
        exact hdel
      | invalidHost =>
        have hping :
            (d.ping Outcome.invalidHost (times attempts)).status_code = -2 := by
          rw [ping_code]; rfl
        refine ih (attempts + 1) (d.ping Outcome.invalidHost (times attempts))
          (by omega) ?_ (by rw [hping]; decide)
        rw [ping_delay_other d Outcome.invalidHost (times attempts)
          (fun rtt hr => by cases hr)]
        exact hdel
      | unknownError =>
        have hping :
            (d.ping Outcome.unknownError (times attempts)).status_code = -3 := by
          rw [ping_code]; rfl
        refine ih (attempts + 1) (d.ping Outcome.unknownError (times attempts))
          (by omega) ?_ (by rw [hping]; decide)
        rw [ping_delay_other d Outcome.unknownError (times attempts)
          (fun rtt hr => by cases hr)]
        exact hdel

/-- C9. Over a whole worker run on a freshly constructed target, the
`delay` field of the result is null unless the final `status_code` is
`1`; when it is `1`, `delay` was set by the (final) successful attempt
to `round(rtt * 1000, 2)` — the observed round-trip time in
milliseconds — and is non-negative. -/
theorem C9_delay_only_on_success (d : Device) (outs : Nat → Outcome)
    (times : Nat → String) (maxAttempts : Nat)
    (hdel : d.delay = none) (hcode : d.status_code = 0)
    (hrtt : ∀ i rtt, outs i = Outcome.success rtt → 0 ≤ rtt) :
    ((processDevice outs times maxAttempts d).1.delay ≠ none →
      (processDevice outs times maxAttempts d).1.status_code = 1)
    ∧ ((processDevice outs times maxAttempts d).1.status_code = 1 →
      ∃ rtt, outs ((processDevice outs times maxAttempts d).2 - 1)
          = Outcome.success rtt
        ∧ (processDevice outs times maxAttempts d).1.delay
          = some (round2 (rtt * 1000))
        ∧ 0 ≤ round2 (rtt * 1000)) := by
  have h := worker_loop_delay_inv outs times maxAttempts
    (maxAttempts + 1 - 0) 0 d rfl hdel (by rw [hcode]; decide)
  unfold processDevice
  refine ⟨h.2, fun h1 => ?_⟩
  obtain ⟨rtt, hsucc, hdelay⟩ := h.1 h1
  exact ⟨rtt, hsucc, hdelay,
    round2_nonneg (rtt * 1000)
      (mul_nonneg (hrtt _ rtt hsucc) (by norm_num))⟩

theorem C9_delay_only_on_success_witness :
    ((processDevice (fun _ => Outcome.success (1/200)) (fun _ => "ts")
        MAX_ATTEMPTS sampleDevice).1.delay ≠ none →
      (processDevice (fun _ => Outcome.success (1/200)) (fun _ => "ts")
        MAX_ATTEMPTS sampleDevice).1.status_code = 1)
    ∧ ((processDevice (fun _ => Outcome.success (1/200)) (fun _ => "ts")
        MAX_ATTEMPTS sampleDevice).1.status_code = 1 →
      ∃ rtt, (fun (_ : Nat) => Outcome.success (1/200))
          ((processDevice (fun _ => Outcome.success (1/200)) (fun _ => "ts")
            MAX_ATTEMPTS sampleDevice).2 - 1) = Outcome.success rtt
        ∧ (processDevice (fun _ => Outcome.success (1/200)) (fun _ => "ts")
            MAX_ATTEMPTS sampleDevice).1.delay
          = some (round2 (rtt * 1000))
        ∧ 0 ≤ round2 (rtt * 1000)) :=
  C9_delay_only_on_success sampleDevice (fun _ => Outcome.success (1/200))
    (fun _ => "ts") MAX_ATTEMPTS rfl rfl
    (fun i rtt h => by cases h; norm_num)

/-! ### The worker pool as a transition system -/

/-- Invariant of reachable pool states: queued devices are fresh
(`status_code = 0`); a held device has made at most `MAX_ATTEMPTS + 1`
attempts, is fresh when it has made none and carries a post-`ping`
status code otherwise; finished devices carry a post-`ping` status
code. -/
structure PoolInv (s : PoolState) : Prop where
  pend : ∀ p ∈ s.pending, (Prod.snd p).status_code = 0
  slot : ∀ o ∈ s.slots, ∀ i d a, o = some (i, d, a) →
    a ≤ MAX_ATTEMPTS + 1 ∧ (a = 0 → d.status_code = 0)
    ∧ (a ≠ 0 → d.status_code ∈ AFTER_PING_CODES)
  done : ∀ p ∈ s.done, (Prod.snd p).status_code ∈ AFTER_PING_CODES

theorem sum_map_set {α : Type} (f : α → Nat) :
    ∀ (l : List α) (w : Nat) (x y : α), l[w]? = some x →
      ((l.set w y).map f).sum + f x = (l.map f).sum + f y := by
  intro l
  induction l with
  | nil => intro w x y h; simp at h
  | cons hd tl ih =>
    intro w x y h
    cases w with
    | zero =>
      rw [List.getElem?_cons_zero] at h
      injection h with h
      subst h
      simp [List.set]
      omega
    | succ n =>
      rw [List.getElem?_cons_succ] at h
      have := ih n x y h
      simp [List.set] at this ⊢
      omega

theorem stepPool_inversion (outs : Nat → Nat → Outcome)
    (times : Nat → Nat → String) (s : PoolState) (w : Nat) (t : PoolState)
    (h : stepPool outs times s w = some t) :
    (∃ i d a, s.slots[w]? = some (some (i, d, a))
      ∧ (a ≤ MAX_ATTEMPTS ∧ d.status_code ∉ TERMINAL_CODES)
      ∧ t = { s with slots := s.slots.set w (some (i, d.ping (outs i a) (times i a), a + 1)) })
    ∨ (∃ i d a, s.slots[w]? = some (some (i, d, a))
      ∧ ¬ (a ≤ MAX_ATTEMPTS ∧ d.status_code ∉ TERMINAL_CODES)
      ∧ t = { s with slots := s.slots.set w none, done := (i, d) :: s.done })
    ∨ (∃ p rest, s.slots[w]? = some none ∧ s.pending = p :: rest
      ∧ t = { s with pending := rest, slots := s.slots.set w (some (p.1, p.2, 0)) }) := by
  unfold stepPool at h
  cases hslot : s.slots[w]? with
  | none => rw [hslot] at h; cases h
  | some o =>
    cases o with
    | some tr =>
      obtain ⟨i, d, a⟩ := tr
      rw [hslot] at h
      dsimp only at h
      by_cases hc : a ≤ MAX_ATTEMPTS ∧ d.status_code ∉ TERMINAL_CODES
      · rw [if_pos hc] at h
        injection h with h
        exact Or.inl ⟨i, d, a, rfl, hc, h.symm⟩
      · rw [if_neg hc] at h
        injection h with h
        exact Or.inr (Or.inl ⟨i, d, a, rfl, hc, h.symm⟩)
    | none =>
      rw [hslot] at h
      dsimp only at h
      cases hp : s.pending with
      | nil => rw [hp] at h; cases h
      | cons p rest =>
        rw [hp] at h
        injection h with h
        exact Or.inr (Or.inr ⟨p, rest, rfl, rfl, h.symm⟩)

theorem stepPool_slots_length (outs : Nat → Nat → Outcome)
    (times : Nat → Nat → String) (s : PoolState) (w : Nat) (t : PoolState)
    (h : stepPool outs times s w = some t) :
    t.slots.length = s.slots.length := by
  rcases stepPool_inversion outs times s w t h with ⟨i, d, a, hslot, hc, ht⟩ | ⟨i, d, a, hslot, hc, ht⟩ | ⟨p, rest, hslot, hp, ht⟩ <;> subst ht <;> simp

theorem stepPool_total (outs : Nat → Nat → Outcome)
    (times : Nat → Nat → String) (s : PoolState) (w : Nat) (t : PoolState)
    (h : stepPool outs times s w = some t) :
    poolTotal t = poolTotal s := by
  rcases stepPool_inversion outs times s w t h with ⟨i, d, a, hslot, hc, ht⟩ | ⟨i, d, a, hslot, hc, ht⟩ | ⟨p, rest, hslot, hp, ht⟩
  · subst ht
    have hsum := sum_map_set slotCount s.slots w (some (i, d, a)) (some (i, d.ping (outs i a) (times i a), a + 1)) hslot
    unfold poolTotal
    dsimp only
    have e1 : slotCount (some (i, d.ping (outs i (a : Nat)) (times i a), a + 1)) = 1 := rfl
    have e2 : slotCount (some (i, d, a)) = 1 := rfl
    rw [e1, e2] at hsum
    omega
  · subst ht
    have hsum := sum_map_set slotCount s.slots w (some (i, d, a)) none hslot
    unfold poolTotal
    dsimp only
    have e1 : slotCount none = 0 := rfl
    have e2 : slotCount (some (i, d, a)) = 1 := rfl
    rw [e1, e2] at hsum
    simp only [List.length_cons]
    omega
  · subst ht
    have hsum := sum_map_set slotCount s.slots w none (some (p.1, p.2, 0)) hslot
    unfold poolTotal
    dsimp only
    have e1 : slotCount (some (p.1, p.2, 0)) = 1 := rfl
    have e2 : slotCount none = 0 := rfl
    rw [e1, e2] at hsum
    rw [hp]
    simp only [List.length_cons]
    omega

theorem stepPool_measure (outs : Nat → Nat → Outcome)
    (times : Nat → Nat → String) (s : PoolState) (w : Nat) (t : PoolState)
    (hinv : PoolInv s) (h : stepPool outs times s w = some t) :
    poolMeasure t < poolMeasure s := by
  rcases stepPool_inversion outs times s w t h with ⟨i, d, a, hslot, hc, ht⟩ | ⟨i, d, a, hslot, hc, ht⟩ | ⟨p, rest, hslot, hp, ht⟩
  · subst ht
    have hsum := sum_map_set slotMeasure s.slots w (some (i, d, a)) (some (i, d.ping (outs i a) (times i a), a + 1)) hslot
    unfold poolMeasure
    dsimp only
    have e1 : slotMeasure (some (i, d.ping (outs i a) (times i a), a + 1))
        = MAX_ATTEMPTS + 2 - (a + 1) := rfl
    have e2 : slotMeasure (some (i, d, a)) = MAX_ATTEMPTS + 2 - a := rfl
    rw [e1, e2] at hsum
    have ha : a ≤ MAX_ATTEMPTS := hc.1
    omega
  · subst ht
    have hsum := sum_map_set slotMeasure s.slots w (some (i, d, a)) none hslot
    unfold poolMeasure
    dsimp only
    have e1 : slotMeasure (none : Slot) = 0 := rfl
    have e2 : slotMeasure (some (i, d, a)) = MAX_ATTEMPTS + 2 - a := rfl
    rw [e1, e2] at hsum
    have hmem : (some (i, d, a) : Slot) ∈ s.slots := by
      rw [List.mem_iff_getElem?]
      exact ⟨w, hslot⟩
    have ha := (hinv.slot _ hmem i d a rfl).1
    omega
  · subst ht
    have hsum := sum_map_set slotMeasure s.slots w none (some (p.1, p.2, 0)) hslot
    unfold poolMeasure
    dsimp only
    have e1 : slotMeasure (some (p.1, p.2, 0)) = MAX_ATTEMPTS + 2 := rfl
    have e2 : slotMeasure (none : Slot) = 0 := rfl
    rw [e1, e2] at hsum
    rw [hp]
    simp only [List.length_cons]
    unfold MAX_ATTEMPTS at hsum ⊢
    omega

theorem stepPool_inv (outs : Nat → Nat → Outcome)
    (times : Nat → Nat → String) (s : PoolState) (w : Nat) (t : PoolState)
    (hinv : PoolInv s) (h : stepPool outs times s w = some t) : PoolInv t := by
  rcases stepPool_inversion outs times s w t h with ⟨i, d, a, hslot, hc, ht⟩ | ⟨i, d, a, hslot, hc, ht⟩ | ⟨p, rest, hslot, hp, ht⟩
  · subst ht
    refine ⟨hinv.pend, ?_, hinv.done⟩
    intro o ho i2 d2 a2 ho2
    rcases List.mem_or_eq_of_mem_set ho with hmem | rfl
    · exact hinv.slot o hmem i2 d2 a2 ho2
    · injection ho2 with ho2
      injection ho2 with h1 h23
      injection h23 with h2 h3
      subst h2
      subst h3
      have ha := hc.1
      exact ⟨by omega, fun hz => by omega, fun _ => ping_code_mem d _ _⟩
  · subst ht
    refine ⟨hinv.pend, ?_, ?_⟩
    · intro o ho i2 d2 a2 ho2
      rcases List.mem_or_eq_of_mem_set ho with hmem | rfl
      · exact hinv.slot o hmem i2 d2 a2 ho2
      · cases ho2
    · intro q hq
      rcases List.mem_cons.mp hq with rfl | hmem
      · have hmem0 : (some (i, d, a) : Slot) ∈ s.slots := by
          rw [List.mem_iff_getElem?]
          exact ⟨w, hslot⟩
        have hs := hinv.slot _ hmem0 i d a rfl
        by_cases hterm : d.status_code ∈ TERMINAL_CODES
        · revert hterm
          unfold TERMINAL_CODES AFTER_PING_CODES
          intro hterm
          simp only [List.mem_cons, List.mem_singleton] at hterm ⊢
          tauto
        · have ha : ¬ a ≤ MAX_ATTEMPTS := fun hle => hc ⟨hle, hterm⟩
          exact hs.2.2 (by omega)
      · exact hinv.done q hmem
  · subst ht
    have hpmem : p ∈ s.pending := by rw [hp]; exact List.mem_cons_self p rest
    refine ⟨?_, ?_, hinv.done⟩
    · intro q hq
      exact hinv.pend q (by rw [hp]; exact List.mem_cons_of_mem p hq)
    · intro o ho i2 d2 a2 ho2
      rcases List.mem_or_eq_of_mem_set ho with hmem | rfl
      · exact hinv.slot o hmem i2 d2 a2 ho2
      · injection ho2 with ho2
        injection ho2 with h1 h23
        injection h23 with h2 h3
        subst h2
        subst h3
        exact ⟨by omega, fun _ => hinv.pend p hpmem, fun hz => absurd rfl hz⟩

theorem stepPool_progress (outs : Nat → Nat → Outcome)
    (times : Nat → Nat → String) (s : PoolState)
    (hW : 1 ≤ s.slots.length) (hf : s.final = false) :
    ∃ w, (stepPool outs times s w).isSome := by
  by_cases hall : s.slots.all Option.isNone = true
  · have hpend : s.pending.isEmpty = false := by
      unfold PoolState.final at hf
      rw [hall] at hf
      simpa using hf
    obtain ⟨p, rest, hp⟩ : ∃ p rest, s.pending = p :: rest := by
      cases hpend2 : s.pending with
      | nil => rw [hpend2] at hpend; simp at hpend
      | cons p rest => exact ⟨p, rest, rfl⟩
    have h0 : 0 < s.slots.length := hW
    have hget : s.slots[0]? = some s.slots[0] := List.getElem?_eq_getElem h0
    have hnone : s.slots[0] = none := by
      have hmem : s.slots[0] ∈ s.slots := List.getElem_mem h0
      have := List.all_eq_true.mp hall _ hmem
      exact Option.isNone_iff_eq_none.mp this
    refine ⟨0, ?_⟩
    unfold stepPool
    rw [hget, hnone, hp]
    rfl
  · have hall2 : s.slots.all Option.isNone = false := by
      cases h2 : s.slots.all Option.isNone with
      | true => exact absurd h2 hall
      | false => rfl
    obtain ⟨o, homem, hosome⟩ := List.all_eq_false.mp hall2
    obtain ⟨w, hw⟩ := List.mem_iff_getElem?.mp homem
    cases o with
    | none => exact absurd rfl hosome
    | some tr =>
      obtain ⟨i, d, a⟩ := tr
      refine ⟨w, ?_⟩
      unfold stepPool
      rw [hw]
      dsimp only
      by_cases hc : a ≤ MAX_ATTEMPTS ∧ d.status_code ∉ TERMINAL_CODES
      · rw [if_pos hc]; rfl
      · rw [if_neg hc]; rfl

theorem runSched_props (outs : Nat → Nat → Outcome)
    (times : Nat → Nat → String) :
    ∀ (sched : List Nat) (s t : PoolState),
      runSched outs times sched s = some t → PoolInv s →
      PoolInv t ∧ poolTotal t = poolTotal s
      ∧ t.slots.length = s.slots.length
      ∧ poolMeasure t + sched.length ≤ poolMeasure s := by
  intro sched
  induction sched with
  | nil =>
    intro s t h hinv
    unfold runSched at h
    injection h with h
    subst h
    exact ⟨hinv, rfl, rfl, by simp⟩
  | cons w ws ih =>
    intro s t h hinv
    unfold runSched at h
    cases hs : stepPool outs times s w with
    | none => rw [hs] at h; cases h
    | some u =>
      rw [hs] at h
      have h1 := stepPool_inv outs times s w u hinv hs
      have h2 := stepPool_total outs times s w u hs
      have h3 := stepPool_slots_length outs times s w u hs
      have h4 := stepPool_measure outs times s w u hinv hs
      obtain ⟨i1, i2, i3, i4⟩ := ih u t h h1
      refine ⟨i1, i2.trans h2, i3.trans h3, ?_⟩
      simp only [List.length_cons]
      omega

theorem pool_reach_final (outs : Nat → Nat → Outcome)
    (times : Nat → Nat → String) :
    ∀ (n : Nat) (s : PoolState), poolMeasure s ≤ n → PoolInv s →
      1 ≤ s.slots.length →
      ∃ sched t, runSched outs times sched s = some t ∧ t.final = true := by
  intro n
  induction n with
  | zero =>
    intro s hm hinv hW
    cases hf : s.final with
    | true => exact ⟨[], s, rfl, hf⟩
    | false =>
      obtain ⟨w, hw⟩ := stepPool_progress outs times s hW hf
      obtain ⟨t, ht⟩ := Option.isSome_iff_exists.mp hw
      have := stepPool_measure outs times s w t hinv ht
      omega
  | succ k ih =>
    intro s hm hinv hW
    cases hf : s.final with
    | true => exact ⟨[], s, rfl, hf⟩
    | false =>
      obtain ⟨w, hw⟩ := stepPool_progress outs times s hW hf
      obtain ⟨t, ht⟩ := Option.isSome_iff_exists.mp hw
      have hlt := stepPool_measure outs times s w t hinv ht
      have hlen := stepPool_slots_length outs times s w t ht
      obtain ⟨sched, u, hrun, hufin⟩ := ih t (by omega)
        (stepPool_inv outs times s w t hinv ht) (by rw [hlen]; exact hW)
      refine ⟨w :: sched, u, ?_, hufin⟩
      unfold runSched
      rw [ht]
      exact hrun

theorem final_done_length (s : PoolState) (hf : s.final = true) :
    s.done.length = poolTotal s := by
  unfold PoolState.final at hf
  rw [Bool.and_eq_true] at hf
  obtain ⟨hp, hall⟩ := hf
  unfold poolTotal
  rw [List.isEmpty_iff.mp hp]
  have hz : (s.slots.map slotCount).sum = 0 := by
    refine List.sum_eq_zero ?_
    intro x hx
    obtain ⟨o, ho, hox⟩ := List.mem_map.mp hx
    have hn := List.all_eq_true.mp hall o ho
    have : o = none := Option.isNone_iff_eq_none.mp hn
    rw [this] at hox
    exact hox.symm
  rw [hz]
  simp

theorem enumFrom_snd_status (l : List Device)
    (hl : ∀ d ∈ l, d.status_code = 0) :
    ∀ (n : Nat) (p : Nat × Device), p ∈ l.enumFrom n →
      (Prod.snd p).status_code = 0 := by
  induction l with
  | nil => intro n p hp; simp at hp
  | cons hd tl ih =>
    intro n p hp
    rw [List.enumFrom_cons] at hp
    rcases List.mem_cons.mp hp with rfl | hmem
    · exact hl hd (List.mem_cons_self hd tl)
    · exact ih (fun d hd2 => hl d (List.mem_cons_of_mem hd hd2)) (n + 1) p hmem

theorem initPool_inv (W : Nat) (devices : List Device)
    (hdev : ∀ d ∈ devices, d.status_code = 0) :
    PoolInv (initPool W devices) := by
  refine ⟨?_, ?_, ?_⟩
  · intro p hp
    exact enumFrom_snd_status devices hdev 0 p hp
  · intro o ho i d a ho2
    have : o = none := List.eq_of_mem_replicate ho
    rw [this] at ho2
    cases ho2
  · intro p hp
    simp [initPool] at hp

theorem initPool_total (W : Nat) (devices : List Device) :
    poolTotal (initPool W devices) = devices.length := by
  unfold poolTotal initPool
  dsimp only
  have h1 : (devices.enum).length = devices.length := List.enum_length
  have h2 : ((List.replicate W (none : Slot)).map slotCount).sum = 0 := by
    rw [List.map_replicate]
    have : slotCount none = 0 := rfl
    rw [this]
    simp
  rw [h1, h2]
  simp

theorem initPool_slots_length (W : Nat) (devices : List Device) :
    (initPool W devices).slots.length = W := by
  unfold initPool
  exact List.length_replicate W none

/-- C2. Over any batch of `K` admitted (freshly constructed) targets and
any worker count `W ≥ 1`, and regardless of the schedule — the order in
which the event loop runs the workers: every schedule is bounded in
length by the pool measure (the run cannot go on forever), from every
reachable non-final state some worker can still step (no deadlock), some
schedule reaches a final state, and every final state holds exactly `K`
finished records, each with a terminal `status_code` in
`{1, -1, -2, -3}`. -/
theorem C2_pool_completion (devices : List Device) (W : Nat)
    (outs : Nat → Nat → Outcome) (times : Nat → Nat → String)
    (hW : 1 ≤ W) (hdev : ∀ d ∈ devices, d.status_code = 0) :
    (∃ sched t, runSched outs times sched (initPool W devices) = some t
      ∧ t.final = true)
    ∧ (∀ sched t,
        runSched outs times sched (initPool W devices) = some t →
        sched.length ≤ poolMeasure (initPool W devices)
        ∧ (t.final = true → t.done.length = devices.length
            ∧ ∀ p ∈ t.done, (Prod.snd p).status_code ∈ AFTER_PING_CODES)
        ∧ (t.final = false → ∃ w, (stepPool outs times t w).isSome)) := by
  have hinv := initPool_inv W devices hdev
  have hlen := initPool_slots_length W devices
  constructor
  · exact pool_reach_final outs times (poolMeasure (initPool W devices))
      (initPool W devices) (le_refl _) hinv (by rw [hlen]; exact hW)
  · intro sched t hrun
    obtain ⟨tinv, htot, htslots, hmeas⟩ :=
      runSched_props outs times sched (initPool W devices) t hrun hinv
    refine ⟨by omega, ?_, ?_⟩
    · intro hf
      refine ⟨?_, tinv.done⟩
      rw [final_done_length t hf, htot, initPool_total]
    · intro hf
      exact stepPool_progress outs times t (by rw [htslots, hlen]; exact hW) hf

theorem C2_pool_completion_witness :
    (∃ sched t, runSched (fun _ _ => Outcome.timeout) (fun _ _ => "ts")
        sched (initPool 1 [sampleDevice]) = some t ∧ t.final = true)
    ∧ (∀ sched t,
        runSched (fun _ _ => Outcome.timeout) (fun _ _ => "ts")
          sched (initPool 1 [sampleDevice]) = some t →
        sched.length ≤ poolMeasure (initPool 1 [sampleDevice])
        ∧ (t.final = true → t.done.length = [sampleDevice].length
            ∧ ∀ p ∈ t.done, (Prod.snd p).status_code ∈ AFTER_PING_CODES)
        ∧ (t.final = false →
            ∃ w, (stepPool (fun _ _ => Outcome.timeout)
              (fun _ _ => "ts") t w).isSome)) :=
  C2_pool_completion [sampleDevice] 1 (fun _ _ => Outcome.timeout)
    (fun _ _ => "ts") (by omega)
    (by intro d hd; rw [List.mem_singleton] at hd; rw [hd]; rfl)

/-- C6 (counterexample). The code performs no worker-count validation:
with worker count `0` (Python `range(w)` spawns no task for any
`w ≤ 0`) and one admitted target, the run does not fail fatally before
probing — the initial state is not final and no worker can ever step,
so `await queue.join()` blocks forever and no error is surfaced. -/
theorem C6_counterexample_zero_workers :
    Deadlocked (fun _ _ => Outcome.timeout) (fun _ _ => "ts")
      (initPool 0 [sampleDevice]) := by
  constructor
  · rfl
  · intro w
    unfold stepPool initPool
    simp

/-- C6 (amended). A run configured with a non-positive worker count is
not rejected: the code never validates `workers`.  On a nonempty batch
the pool deadlocks — the state is not final yet no step is ever enabled,
so `queue.join()` never returns and no error of any kind is produced;
on an empty batch the run completes normally despite the invalid
configuration. -/
theorem C6_amended_zero_workers_deadlock (outs : Nat → Nat → Outcome)
    (times : Nat → Nat → String) (devices : List Device)
    (hne : devices ≠ []) :
    Deadlocked outs times (initPool 0 devices)
    ∧ (initPool 0 ([] : List Device)).final = true := by
  refine ⟨⟨?_, ?_⟩, rfl⟩
  · unfold PoolState.final initPool
    cases devices with
    | nil => exact absurd rfl hne
    | cons d ds => rfl
  · intro w
    unfold stepPool initPool
    simp

theorem C6_amended_zero_workers_deadlock_witness :
    Deadlocked (fun _ _ => Outcome.timeout) (fun _ _ => "ts")
      (initPool 0 [sampleDevice, sampleDevice])
    ∧ (initPool 0 ([] : List Device)).final = true :=
  C6_amended_zero_workers_deadlock (fun _ _ => Outcome.timeout)
    (fun _ _ => "ts") [sampleDevice, sampleDevice] (by simp)

/-! ### Admission of inventory records -/

theorem KRecord.get_append_one (l : List (String × KVal)) (k k2 : String)
    (v : KVal) (hk : (k2 == k) = false) :
    KRecord.get (l ++ [(k2, v)]) k = KRecord.get l k := by
  induction l with
  | nil =>
    unfold KRecord.get
    simp [List.find?, hk]
  | cons hd tl ih =>
    unfold KRecord.get at ih ⊢
    rw [List.cons_append]
    cases hhd : (hd.1 == k) with
    | true => simp only [List.find?_cons, hhd]
    | false =>
      simp only [List.find?_cons, hhd]
      exact ih

theorem construct_isOk_eq_admissible (record : KRecord)
    (device_type : String) (fields : List (String × String)) (nowMs : Int) :
    (construct_device record device_type fields nowMs).isOk
      = admissible record fields := by
  unfold construct_device admissible mkDevice raise_if_invalid
  rw [KRecord.get_append_one _ "ip_address" "device_type" _ (by decide)]
  rw [KRecord.get_append_one _ "device_id" "device_type" _ (by decide)]
  cases h1 : (KRecord.get (fields.map fun kv => (kv.1, record.get kv.2))
      "ip_address").truthy
    <;> cases h2 : (KRecord.get (fields.map fun kv => (kv.1, record.get kv.2))
      "device_id").truthy
    <;> simp [Except.isOk, Except.toBool]

theorem buildDevices_length_eq_countP (records : List KRecord)
    (device_type : String) (fields : List (String × String)) (nowMs : Int) :
    (buildDevices records device_type fields nowMs).length
      = records.countP (fun r => admissible r fields) := by
  induction records with
  | nil => rfl
  | cons r rs ih =>
    unfold buildDevices at ih ⊢
    simp only [Except.toOption] at ih
    rw [List.countP_cons]
    cases hr : construct_device r device_type fields nowMs with
    | error e =>
      have hadm : admissible r fields = false := by
        rw [← construct_isOk_eq_admissible r device_type fields nowMs, hr]
        rfl
      rw [List.filterMap_cons]
      simp only [hr, Except.toOption]
      simp [ih, hadm]
    | ok d =>
      have hadm : admissible r fields = true := by
        rw [← construct_isOk_eq_admissible r device_type fields nowMs, hr]
        rfl
      rw [List.filterMap_cons]
      simp only [hr, Except.toOption]
      simp [ih, hadm]

theorem buildDevices_status0 (records : List KRecord)
    (device_type : String) (fields : List (String × String)) (nowMs : Int) :
    ∀ d ∈ buildDevices records device_type fields nowMs,
      d.status_code = 0 := by
  intro d hd
  unfold buildDevices at hd
  obtain ⟨r, hr, hmap⟩ := List.mem_filterMap.mp hd
  cases hc : construct_device r device_type fields nowMs with
  | error e => rw [hc] at hmap; cases hmap
  | ok d2 =>
    rw [hc] at hmap
    have hd2 : d2 = d := by
      have : Except.toOption (Except.ok (ε := String) d2) = some d2 := rfl
      rw [this] at hmap
      injection hmap
    subst hd2
    exact (construct_device_ok r device_type fields nowMs d2 hc).1

/-- C5 (counterexample). On a batch of two well-formed records and one
malformed record (its `ip_address` source field is absent), the count
the run reports (`len(devices)` in the log line at
`run_comm_check.py` line 193) is `2` — the number of admitted records —
while the number of dropped records is `1`: the dropped count `M` itself
is never reported. -/
theorem C5_reported_count_is_admitted_not_dropped :
    loggedDeviceCount mixedRecords "camera" cameraFields 0 = 2
    ∧ mixedRecords.length
        - loggedDeviceCount mixedRecords "camera" cameraFields 0 = 1
    ∧ loggedDeviceCount mixedRecords "camera" cameraFields 0
        ≠ mixedRecords.length
          - loggedDeviceCount mixedRecords "camera" cameraFields 0 := by
  refine ⟨rfl, rfl, by decide⟩

/-- C5 (amended). For every batch of `N` well-formed records plus `M`
malformed records (missing or falsy `ip_address` or `device_id` after
field mapping): construction of the `Device` of each malformed record fails
with a `ValueError` (construction succeeds exactly on admissible
records), the malformed records are dropped without aborting the batch,
the count of admitted records `N` is reported (`M` itself is not
reported), and any completed run over the admitted devices finishes
exactly `N` of them. -/
theorem C5_amended_malformed_dropped (records : List KRecord)
    (device_type : String) (fields : List (String × String)) (nowMs : Int)
    (W : Nat) (outs : Nat → Nat → Outcome) (times : Nat → Nat → String) :
    (∀ r ∈ records, (construct_device r device_type fields nowMs).isOk
        = admissible r fields)
    ∧ (buildDevices records device_type fields nowMs).length
        = records.countP (fun r => admissible r fields)
    ∧ loggedDeviceCount records device_type fields nowMs
        = (buildDevices records device_type fields nowMs).length
    ∧ (∀ sched t, runSched outs times sched
          (initPool W (buildDevices records device_type fields nowMs))
            = some t →
        t.final = true →
        t.done.length
          = (buildDevices records device_type fields nowMs).length) := by
  refine ⟨fun r _ => construct_isOk_eq_admissible r device_type fields nowMs,
    buildDevices_length_eq_countP records device_type fields nowMs, rfl, ?_⟩
  intro sched t hrun hf
  have hinv := initPool_inv W (buildDevices records device_type fields nowMs)
    (buildDevices_status0 records device_type fields nowMs)
  obtain ⟨tinv, htot, -, -⟩ := runSched_props outs times sched _ t hrun hinv
  rw [final_done_length t hf, htot, initPool_total]

/-- C7 (code-bug evidence). For the `camera` device type — whose
`CONFIG` entry maps a `signal_id` field, here populated with `123` in
the input record — the output dict produced by `Device.__dict__`
contains exactly the eleven `__slots__` keys and never a `signal_id`
key: `Device.__init__` silently drops keyword arguments outside
`__slots__`, although the repository `SCHEMA` itself lists `signal_id`
as an output column. -/
theorem C7_signal_id_dropped_from_output :
    construct_device camRecord "camera" cameraFields 0
      = Except.ok sampleDevice
    ∧ sampleDevice.toDict.map Prod.fst = SLOT_KEYS
    ∧ "signal_id" ∉ SLOT_KEYS
    ∧ (CONFIG.filter (fun c => c.device_type == "camera")).map Cfg.fields
        = [cameraFields]
    ∧ ("signal_id", "field_199") ∈ cameraFields
    ∧ KRecord.get camRecord "field_199" = KVal.vint 123
    ∧ "signal_id" ∈ SCHEMA_KEYS := by
  refine ⟨rfl, rfl, by decide, by decide, by decide, rfl, by decide⟩

end SignalComms
